import Mathlib

/-!
Verification of the quibraries request-construction and pagination engine.

This file gives a shallow embedding, in Lean 4, of the Python sources of the
`quibraries` client library (a wrapper around the libraries.io web API), and
proves properties of the embedded definitions.

Conventions of the embedding:
* Python `int` is modelled as `Int` (Python integers are unbounded).
* A raised Python exception is modelled as `Except.error` carrying a `PyError`
  value; each custom exception class of `errors.py`, and each Python builtin
  exception that the code can raise, has one constructor.
* The mutable `requests.Session.params` dictionary is modelled as the `Params`
  structure: the code only ever writes the fixed set of keys appearing as its
  fields, so a field-per-key record is a faithful model of the reachable
  dictionary states; `dict.clear()` becomes `Params.clear` (every field unset).
* The HTTP transport is passed in as an explicit function
  `http : HttpRequest → Except PyError HttpResponse`; a transport-level failure
  (e.g. `requests.exceptions.RetryError`) is an `Except.error` result of that
  function.  Functions that may dispatch requests also return the list of
  dispatched requests, so "no network call is attempted" is expressible.
-/

set_option autoImplicit false
set_option linter.unnecessarySeqFocus false

namespace Quibraries

/-- Constant from `consts.py`: the default page (pages start from 1). -/
def QB_DEFAULT_PAGE : Int := 1

/-- Constant from `consts.py`: the default number of items per page. -/
def QB_DEFAULT_PER_PAGE : Int := 30

/-- Constant from `consts.py`: the libraries.io base API URI. -/
def LB_BASE_API_URI : String := "https://libraries.io/api"

/-- Constant from `consts.py`: the libraries.io subscriptions API URI. -/
def LB_SUBSCRIPTIONS_API_URI : String := LB_BASE_API_URI ++ "/subscriptions"

/-- The `HttpOperation` enum of `http_ops.py`. -/
inductive HttpOperation
  | get
  | post
  | put
  | delete
deriving DecidableEq, Repr

/-- The `.value` string of each `HttpOperation` member. -/
def HttpOperation.value : HttpOperation → String
  | .get => "get"
  | .post => "post"
  | .put => "put"
  | .delete => "delete"

/-- The `SearchOperationTypes` enum of `search_ops.py`. -/
inductive SearchOperationTypes
  | platforms
  | project
  | projectDependencies
  | projectDependents
  | projectDependentRepositories
  | projectContributors
  | projectSourcerank
  | projectSearch
  | repository
  | repositoryDependencies
  | repositoryProjects
  | user
  | userRepositories
  | userRepositoryContributions
  | userPackages
  | userPackagesContributions
  | userDependencies
deriving DecidableEq, Repr

/-- The `SubscribeOperationTypes` enum of `subscribe_ops.py`. -/
inductive SubscribeOperationTypes
  | userSubscriptions
  | subscribeUserToProject
  | unsubscribeUserFromProject
  | checkIfSubscribedToProject
  | updateSubscriptionToProject
deriving DecidableEq, Repr

/-- The `SearchSortTypes` enum of `search_ops.py`. -/
inductive SearchSortTypes
  | contributionsCount
  | createdAt
  | dependentsCount
  | dependentReposCount
  | latestReleasePublishedAt
  | rank
  | stars
deriving DecidableEq, Repr

/-- The `.value` string of each `SearchSortTypes` member. -/
def SearchSortTypes.value : SearchSortTypes → String
  | .contributionsCount => "contributions_count"
  | .createdAt => "created_at"
  | .dependentsCount => "dependents_count"
  | .dependentReposCount => "dependents_repo_count"
  | .latestReleasePublishedAt => "latest_release_published_at"
  | .rank => "rank"
  | .stars => "stars"

/-- The `SearchFilterTypes` enum of `search_ops.py`. -/
inductive SearchFilterTypes
  | languages
  | licenses
  | keywords
  | platforms
deriving DecidableEq, Repr

/-- Exceptions: the custom exception classes of `errors.py` (all subclasses of
Python `Exception`), plus the builtin exceptions the embedded code can raise.
`argumentMissingError` carries the missing key its message names;
`httpError` carries the HTTP status (from `requests.exceptions.HTTPError`). -/
inductive PyError
  | apiKeyMissingError
  | sessionNotInitialisedError
  | invalidSessionClassSupplied
  | unnamedArgumentError
  | invalidHTTPOperationSupplied
  | paginationReceivedAnEmptyPageError
  | argumentMissingError (key : String)
  | valueError (msg : String)
  | typeError
  | attributeError (msg : String)
  | httpError (status : Nat)
  | retryError
  | jsonDecodeError
deriving DecidableEq, Repr

/-- The per-session query-parameter dictionary `requests.Session.params`.
The code writes exactly these keys, so the reachable dictionary states are the
values of this record; a key absent from the dictionary is a `none` field.
A Python set of strings is modelled as the list of its elements. -/
@[ext]
structure Params where
  api_key : Option String := none
  include_prerelease : Option Bool := none
  page : Option Int := none
  per_page : Option Int := none
  q : Option String := none
  sort : Option String := none
  languages : Option (List String) := none
  licenses : Option (List String) := none
  keywords : Option (List String) := none
  platforms : Option (List String) := none
deriving DecidableEq, Repr

/-- The result of `dict.clear()` on the parameter dictionary: every key absent. -/
def Params.clear : Params := {}

/-- The session-keeper state of `remote_sess.py` `LibIOSessionBase`:
`_api_key` (`None` when neither argument nor environment supplied a key) and
the parameter dictionary of the underlying `requests.Session` object.
The retry configuration is transport-level state with no bearing on the
embedded control flow and is not modelled. -/
structure LibIOSessionBase where
  api_key : Option String
  params : Params
deriving DecidableEq, Repr

/-- Embedding of `LibIOSessionBase.get_key`: raises `APIKeyMissingError` when
`_api_key` is `None` or falsy (the empty string). -/
def LibIOSessionBase.get_key (s : LibIOSessionBase) : Except PyError String :=
  match s.api_key with
  | none => .error .apiKeyMissingError
  | some k => if k = "" then .error .apiKeyMissingError else .ok k

/-- Embedding of `LibIOSessionBase.set_key`. -/
def LibIOSessionBase.set_key (s : LibIOSessionBase) (key : String) : LibIOSessionBase :=
  { s with api_key := some key }

/-- Embedding of `LibIOSessionBase.clear_session_params`: `self._sess.params.clear()`.
The `_has_valid_session` guard cannot fire in the embedding because every
constructed state carries a session object. -/
def LibIOSessionBase.clear_session_params (s : LibIOSessionBase) : LibIOSessionBase :=
  { s with params := Params.clear }

/-- Embedding of `LibIOSessionBase.__init__` followed by `_create_session`:
`_api_key` is the explicit argument when truthy, otherwise
`os.environ.get("LIBRARIES_API_KEY", None)` (the `env_api_key` argument);
`_create_session` makes a fresh `requests.Session` (empty parameters) and runs
`self.set_key(self.get_key())`, which raises when the key is absent. -/
def LibIOSessionBase.init (api_key : String) (env_api_key : Option String) :
    Except PyError LibIOSessionBase :=
  let s : LibIOSessionBase :=
    { api_key := if api_key = "" then env_api_key else some api_key, params := Params.clear }
  match s.get_key with
  | .error e => .error e
  | .ok k => .ok (s.set_key k)

/-- Embedding of the static method `LibIOSessionBase.fix_pages`: reads the
candidate `page` / `per_page` (falling back to the session parameters and then
to the defaults on `KeyError`), clamps them into range, stores them into the
session parameters and reports whether the stored values equal the requested
ones. -/
def fix_pages (params : Params) (page per_page : Option Int) : Params × Bool :=
  let page : Int :=
    match page with
    | some p => p
    | none =>
      match params.page with
      | some p => p
      | none => QB_DEFAULT_PAGE
  let per_page : Int :=
    match per_page with
    | some pp => pp
    | none =>
      match params.per_page with
      | some pp => pp
      | none => QB_DEFAULT_PER_PAGE
  let params' : Params :=
    { params with page := some (max page 1), per_page := some (min (max per_page 1) 100) }
  (params', params'.page == some page && params'.per_page == some per_page)

/-- Embedding of `LibIOSessionBase.get_session`.  With `force_recreate` the
session is rebuilt from scratch (`_create_session`: fresh empty parameters,
`set_key(get_key())`); otherwise the API key is injected into the parameters.
Then the prerelease flag is added when requested, and for `GET` requests the
pagination parameters are normalised via `fix_pages`. -/
def LibIOSessionBase.get_session (s : LibIOSessionBase) (req_type : HttpOperation)
    (page items_per_page : Option Int) (force_recreate include_prerelease : Bool) :
    Except PyError LibIOSessionBase :=
  let created : Except PyError LibIOSessionBase :=
    if force_recreate then
      match s.get_key with
      | .error e => .error e
      | .ok k => .ok { api_key := some k, params := Params.clear }
    else
      match s.get_key with
      | .error e => .error e
      | .ok k => .ok { s with params := { s.params with api_key := some k } }
  match created with
  | .error e => .error e
  | .ok s1 =>
    let s2 : LibIOSessionBase :=
      if include_prerelease then
        { s1 with params := { s1.params with include_prerelease := some true } }
      else s1
    let s3 : LibIOSessionBase :=
      if req_type = HttpOperation.get then
        { s2 with params := (fix_pages s2.params page items_per_page).1 }
      else s2
    .ok s3

/-- Filter sets supplied under the `filters` keyword of a project search: a
Python `dict[SearchFilterTypes, set[str]]`.  A dictionary has each enum key at
most once, so one optional field per filter kind models it; each set of strings
is modelled as the list of its elements. -/
@[ext]
structure FiltersVal where
  languages : Option (List String) := none
  licenses : Option (List String) := none
  keywords : Option (List String) := none
  platforms : Option (List String) := none
deriving DecidableEq, Repr

/-- A value bound to a keyword argument: the call sites pass strings, integers,
`SearchSortTypes` members and filter dictionaries. -/
inductive KwVal
  | str (s : String)
  | int (i : Int)
  | sortVal (v : SearchSortTypes)
  | filtersVal (fv : FiltersVal)
deriving DecidableEq, Repr

/-- The variadic `**kwargs` dictionary, in insertion order. -/
abbrev Kwargs := List (String × KwVal)

/-- Dictionary assignment `kwargs[k] = v`: replaces the value of an existing
key in place, appends a new key at the end. -/
def Kwargs.set (kwargs : Kwargs) (k : String) (v : KwVal) : Kwargs :=
  if (kwargs.lookup k).isSome then
    kwargs.map fun kv => if kv.1 = k then (k, v) else kv
  else kwargs ++ [(k, v)]

/-- Whether a byte is left unescaped by `urllib.parse.quote(s, safe="")`:
ASCII letters, digits, and the characters `_.-~`. -/
def isUnreservedByte (n : Nat) : Bool :=
  (65 ≤ n && n ≤ 90) || (97 ≤ n && n ≤ 122) || (48 ≤ n && n ≤ 57) ||
    n == 45 || n == 46 || n == 95 || n == 126

/-- Upper-case hexadecimal digit of a value below 16. -/
def hexDigitChar (n : Nat) : Char :=
  if n < 10 then Char.ofNat (48 + n) else Char.ofNat (55 + n)

/-- Percent-escape of one byte. -/
def quoteByte (n : Nat) : String :=
  String.mk ['%', hexDigitChar (n / 16), hexDigitChar (n % 16)]

/-- Embedding of `urllib.parse.quote(s, safe="")`: percent-encodes every UTF-8
byte outside the unreserved set (with `safe=""` even `/` is encoded). -/
def quote (s : String) : String :=
  String.join (s.toUTF8.toList.map fun b =>
    let n := b.toNat
    if isUnreservedByte n then String.singleton (Char.ofNat n) else quoteByte n)

/-- Modelled from the spec: the `ArgumentTypes` enum lives in the repository's
`arg_ops.py`, which is imported by `helpers.py`, `search_helpers.py` and
`subscribe_helpers.py` but is absent from the sources; its members and `.value`
strings follow the spec (required-argument keys per operation, section 4) and
the keyword names used by the `Search` facade (`platform`, `project`,
`version`, `host`, `owner`, `repo`, `user`, `query`, `filters`, `sort`). -/
inductive ArgumentTypes
  | platform
  | project
  | version
  | host
  | owner
  | repo
  | user
  | query
  | filters
  | sort
  | search
deriving DecidableEq, Repr

/-- The `.value` string of each `ArgumentTypes` member (the keyword key it is
looked up under, or the path segment it contributes). -/
def ArgumentTypes.value : ArgumentTypes → String
  | .platform => "platform"
  | .project => "project"
  | .version => "version"
  | .host => "host"
  | .owner => "owner"
  | .repo => "repo"
  | .user => "user"
  | .query => "query"
  | .filters => "filters"
  | .sort => "sort"
  | .search => "search"

/-- Modelled from the spec: the `TailEndpoints` enum of the absent `arg_ops.py`;
the `.value` strings are the literal URI tails in the handler's per-operation
URI format comments. -/
inductive TailEndpoints
  | platforms
  | dependencies
  | dependents
  | dependentRepositories
  | contributors
  | sourcerank
  | projects
  | repositories
  | projectContributions
  | repositoryContributions
deriving DecidableEq, Repr

/-- The `.value` string of each `TailEndpoints` member. -/
def TailEndpoints.value : TailEndpoints → String
  | .platforms => "platforms"
  | .dependencies => "dependencies"
  | .dependents => "dependents"
  | .dependentRepositories => "dependent_repositories"
  | .contributors => "contributors"
  | .sourcerank => "sourcerank"
  | .projects => "projects"
  | .repositories => "repositories"
  | .projectContributions => "projects-contributions"
  | .repositoryContributions => "repository-contributions"

/-- Embedding of `helpers.from_kwargs`: extracts the value of each key in
order; the first absent key raises `ArgumentMissingError` with a message
naming that key; string values are percent-encoded with `quote`, other values
pass through unchanged. -/
def from_kwargs (keys : List ArgumentTypes) (kwargs : Kwargs) : Except PyError (List KwVal) :=
  match keys with
  | [] => .ok []
  | k :: rest =>
    match kwargs.lookup k.value with
    | none => .error (.argumentMissingError k.value)
    | some v =>
      let v' : KwVal :=
        match v with
        | .str s => .str (quote s)
        | w => w
      (from_kwargs rest kwargs).map fun vs => v' :: vs

/-- Embedding of `"/".join(uri_list)`: raises `TypeError` unless every element
of the list is a string. -/
def joinSegments (segs : List KwVal) : Except PyError String :=
  if segs.all (fun v => match v with | .str _ => true | _ => false) then
    .ok (String.intercalate "/" (segs.map fun v => match v with | .str s => s | _ => ""))
  else .error .typeError

/-- A decoded JSON response body: a mapping or a sequence (entries and items
abstracted to strings, which suffices for the properties proved here). -/
inductive PyObj
  | dict (entries : List (String × String))
  | list (items : List String)
deriving DecidableEq, Repr

/-- Python truthiness of a response body: an empty mapping or sequence is falsy. -/
def PyObj.falsy : PyObj → Bool
  | .dict es => es.isEmpty
  | .list xs => xs.isEmpty

/-- One dispatched HTTP request: the verb, the built URI, and the session
parameters it carries as query parameters. -/
structure HttpRequest where
  verb : HttpOperation
  uri : String
  params : Params
deriving DecidableEq, Repr

/-- The response the transport hands back: status code, raw body text, and the
JSON-decoded body (`none` when `resp.json()` would raise a decode error). -/
structure HttpResponse where
  status : Nat
  text : String
  json : Option PyObj
deriving DecidableEq, Repr

/-- The synthetic confirmation payload `request_factory` substitutes for a
`DELETE` answered by 204 with an empty body. -/
def synthetic_delete_payload : PyObj :=
  .dict [("status", "delete returned HTTP code of 204 with an empty body which means it was successful")]

/-- Embedding of the response handling at the end of
`LibIOSessionBase.request_factory`: `resp.raise_for_status()` raises
`HTTPError` exactly for 4xx/5xx status codes; then a `DELETE` answered by 204
with an empty body yields the synthetic success payload; otherwise the JSON
body is returned (`resp.json()` raises on an undecodable body). -/
def handle_response (req_type : HttpOperation) (resp : HttpResponse) : Except PyError PyObj :=
  if 400 ≤ resp.status ∧ resp.status < 600 then .error (.httpError resp.status)
  else if req_type = HttpOperation.delete ∧ resp.status = 204 ∧ resp.text = "" then
    .ok synthetic_delete_payload
  else
    match resp.json with
    | some o => .ok o
    | none => .error .jsonDecodeError

/-- The required named arguments each search operation extracts with
`from_kwargs`, in the fixed order of `SearchAPI._uri_handler`. -/
def SearchAPI.required_args : SearchOperationTypes → List ArgumentTypes
  | .platforms => []
  | .project => [.platform, .project]
  | .projectDependencies => [.platform, .project, .version]
  | .projectDependents => [.platform, .project]
  | .projectDependentRepositories => [.platform, .project]
  | .projectContributors => [.platform, .project]
  | .projectSourcerank => [.platform, .project]
  | .projectSearch => []
  | .repository => [.host, .owner, .repo]
  | .repositoryDependencies => [.host, .owner, .repo]
  | .repositoryProjects => [.host, .owner, .repo]
  | .user => [.host, .user]
  | .userRepositories => [.host, .user]
  | .userRepositoryContributions => [.host, .user]
  | .userPackages => [.host, .user]
  | .userPackagesContributions => [.host, .user]
  | .userDependencies => [.host, .user]

/-- The literal URI tail each search operation appends after its arguments
(`none` when the operation appends no tail). -/
def SearchAPI.uri_tail : SearchOperationTypes → Option TailEndpoints
  | .platforms => none
  | .project => none
  | .projectDependencies => some .dependencies
  | .projectDependents => some .dependents
  | .projectDependentRepositories => some .dependentRepositories
  | .projectContributors => some .contributors
  | .projectSourcerank => some .sourcerank
  | .projectSearch => none
  | .repository => none
  | .repositoryDependencies => some .dependencies
  | .repositoryProjects => some .projects
  | .user => none
  | .userRepositories => some .repositories
  | .userRepositoryContributions => some .repositoryContributions
  | .userPackages => some .projects
  | .userPackagesContributions => some .projectContributions
  | .userDependencies => some .dependencies

/-- Embedding of the static method `SearchAPI._uri_handler`: rejects positional
arguments, then builds `uri_list` from the base URI, the operation's required
arguments (extracted with `from_kwargs`), its literal segments, and joins with
`"/"`.  The per-operation match of the source is captured by
`SearchAPI.required_args` and `SearchAPI.uri_tail`, which tabulate its cases;
`PLATFORMS` and `PROJECT_SEARCH` contribute only a literal segment. -/
def SearchAPI.uri_handler (op : SearchOperationTypes) (args : List KwVal) (kwargs : Kwargs) :
    Except PyError String :=
  if args.length > 0 then .error .unnamedArgumentError
  else
    let lit : List KwVal :=
      match op with
      | .platforms => [.str TailEndpoints.platforms.value]
      | .projectSearch => [.str ArgumentTypes.search.value]
      | _ =>
        match SearchAPI.uri_tail op with
        | some t => [.str t.value]
        | none => []
    match from_kwargs (SearchAPI.required_args op) kwargs with
    | .error e => .error e
    | .ok vs => joinSegments (.str LB_BASE_API_URI :: (vs ++ lit))

/-- Writes one filter entry of the `filters` dictionary into the session
parameters: `sess_params[flt.value] = {quote(item) for item in filters[flt]}`.
The entries of a dictionary are written to distinct keys, so the iteration
order over the dictionary is immaterial. -/
def apply_filters (p : Params) (fv : FiltersVal) : Params :=
  let p := match fv.languages with
    | some xs => { p with languages := some (xs.map quote) }
    | none => p
  let p := match fv.licenses with
    | some xs => { p with licenses := some (xs.map quote) }
    | none => p
  let p := match fv.keywords with
    | some xs => { p with keywords := some (xs.map quote) }
    | none => p
  match fv.platforms with
  | some xs => { p with platforms := some (xs.map quote) }
  | none => p

/-- Embedding of the static method `SearchAPI._param_handler`.  Only
`PROJECT_SEARCH` touches the parameters: it merges the query text, the filter
sets and the sort key when supplied.  A non-string query value makes
`quote` raise `TypeError`; a non-dictionary `filters` value raises the
handler's own `AttributeError`; a non-enum `sort` value has no `.value`
attribute and raises `AttributeError`.  The result pairs the parameters as
mutated so far with the raised exception, if any. -/
def SearchAPI.param_handler (op : SearchOperationTypes) (p : Params) (kwargs : Kwargs) :
    Params × Option PyError :=
  match op with
  | .projectSearch =>
    let step1 : Params × Option PyError :=
      match kwargs.lookup ArgumentTypes.query.value with
      | none => (p, none)
      | some (.str s) => ({ p with q := some (quote s) }, none)
      | some _ => (p, some .typeError)
    match step1 with
    | (p1, some e) => (p1, some e)
    | (p1, none) =>
      let step2 : Params × Option PyError :=
        match kwargs.lookup ArgumentTypes.filters.value with
        | none => (p1, none)
        | some (.filtersVal fv) => (apply_filters p1 fv, none)
        | some _ => (p1, some (.attributeError "Filters need to be a dictionary of sets of strings."))
      match step2 with
      | (p2, some e) => (p2, some e)
      | (p2, none) =>
        match kwargs.lookup ArgumentTypes.sort.value with
        | none => (p2, none)
        | some (.sortVal v) => ({ p2 with sort := some (quote v.value) }, none)
        | some _ => (p2, some (.attributeError "value"))
  | _ => (p, none)

/-- Embedding of the static method `SubscribeAPI._uri_handler`: rejects
positional arguments; every operation except `USER_SUBSCRIPTIONS` extracts the
`platform` and `project` arguments; segments are joined under the
subscriptions base URI. -/
def SubscribeAPI.uri_handler (op : SubscribeOperationTypes) (args : List KwVal) (kwargs : Kwargs) :
    Except PyError String :=
  if args.length > 0 then .error .unnamedArgumentError
  else
    match
      (if op ∈ [SubscribeOperationTypes.userSubscriptions] then .ok []
       else from_kwargs [.platform, .project] kwargs : Except PyError (List KwVal)) with
    | .error e => .error e
    | .ok vs => joinSegments (.str LB_SUBSCRIPTIONS_API_URI :: vs)

/-- Embedding of the static method `SubscribeAPI._param_handler`: passes the
session parameters through unchanged. -/
def SubscribeAPI.param_handler (_op : SubscribeOperationTypes) (p : Params) (_kwargs : Kwargs) :
    Params × Option PyError :=
  (p, none)

/-- A URI handler partially applied at its operation, as stored under the
`uri_handler` key of `**kwargs` (`none` models the `setdefault` value `None`). -/
abbrev UriHandler := List KwVal → Kwargs → Except PyError String

/-- A parameter handler partially applied at its operation, as stored under
the `param_handler` key of `**kwargs`. -/
abbrev ParamHandler := Params → Kwargs → Params × Option PyError

/-- What `LibIOSessionBase.request_factory` produces: the returned body or the
raised exception, the session state after the call (its parameter dictionary
is mutated in place), and the list of dispatched HTTP requests. -/
structure RFResult where
  result : Except PyError PyObj
  sess : LibIOSessionBase
  trace : List HttpRequest
deriving Repr

/-- The part of `request_factory` from the `get_session` call onwards: fetch
the session (prerelease implied for `POST`), apply the parameter handler,
dispatch exactly one request, classify the response. -/
def LibIOSessionBase.request_factory_tail (s : LibIOSessionBase) (req_type : HttpOperation)
    (param_handler : Option ParamHandler) (uri : String) (page items_per_page : Option Int)
    (kwargs : Kwargs) (http : HttpRequest → Except PyError HttpResponse) : RFResult :=
  match s.get_session req_type page items_per_page false (req_type = HttpOperation.post) with
  | .error e => ⟨.error e, s, []⟩
  | .ok s1 =>
    let handled : Params × Option PyError :=
      match param_handler with
      | none => (s1.params, none)
      | some ph => ph s1.params kwargs
    let s2 : LibIOSessionBase := { s1 with params := handled.1 }
    match handled.2 with
    | some e => ⟨.error e, s2, []⟩
    | none =>
      let req : HttpRequest := ⟨req_type, uri, s2.params⟩
      match http req with
      | .error e => ⟨.error e, s2, [req]⟩
      | .ok resp => ⟨handle_response req_type resp, s2, [req]⟩

/-- Embedding of `LibIOSessionBase.request_factory`.  In source order: the
handlers are defaulted, the verb is checked against the four supported
operations, the URI is built (`kwargs["uri_handler"]` being `None` raises
`TypeError` at the call), the session is fetched via `get_session` (prerelease
implied for `POST`; `page` / `items_per_page` read from `**kwargs`, a non-int
value of either raising `TypeError` inside `fix_pages`), the parameter handler
is applied, exactly one request of the given verb is dispatched, and the
response is classified by `handle_response`. -/
def LibIOSessionBase.request_factory (s : LibIOSessionBase) (req_type : HttpOperation)
    (uri_handler : Option UriHandler) (param_handler : Option ParamHandler)
    (args : List KwVal) (kwargs : Kwargs)
    (http : HttpRequest → Except PyError HttpResponse) : RFResult :=
  if req_type ∉ [HttpOperation.get, .put, .post, .delete] then
    ⟨.error .invalidHTTPOperationSupplied, s, []⟩
  else
    match uri_handler with
    | none => ⟨.error .typeError, s, []⟩
    | some uh =>
      match uh args kwargs with
      | .error e => ⟨.error e, s, []⟩
      | .ok uri =>
        let pageArg : Except PyError (Option Int) :=
          match kwargs.lookup "page" with
          | none => .ok none
          | some (.int i) => .ok (some i)
          | some _ => .error .typeError
        let ippArg : Except PyError (Option Int) :=
          match kwargs.lookup "items_per_page" with
          | none => .ok none
          | some (.int i) => .ok (some i)
          | some _ => .error .typeError
        match pageArg, ippArg with
        | .error e, _ => ⟨.error e, s, []⟩
        | _, .error e => ⟨.error e, s, []⟩
        | .ok page, .ok items_per_page =>
          s.request_factory_tail req_type param_handler uri page items_per_page kwargs http

/-- Embedding of `LibIOSession.make_request`: runs `request_factory` with
`ret` initialised to the empty mapping; `HTTPError`, `RetryError` and every
other `Exception` (all the modelled errors) are logged, leaving `ret` empty;
the `finally` clause always clears the session parameters.  Returns the
result, the final session state, and the dispatched requests. -/
def LibIOSession.make_request (s : LibIOSessionBase) (req_type : HttpOperation)
    (uri_handler : Option UriHandler) (param_handler : Option ParamHandler)
    (args : List KwVal) (kwargs : Kwargs)
    (http : HttpRequest → Except PyError HttpResponse) :
    PyObj × LibIOSessionBase × List HttpRequest :=
  let rf := s.request_factory req_type uri_handler param_handler args kwargs http
  let ret : PyObj :=
    match rf.result with
    | .ok v => v
    | .error _ => .dict []
  (ret, rf.sess.clear_session_params, rf.trace)

/-- The concrete Python class of a session object, for the `isinstance`
checks of the facades: `LibIOSessionBase` itself or its subclass
`LibIOSession`. -/
inductive SessKind
  | base
  | session
deriving DecidableEq, Repr

/-- A session object as a facade receives it: its concrete class together
with its `LibIOSessionBase` state. -/
structure SessObj where
  kind : SessKind
  state : LibIOSessionBase
deriving DecidableEq, Repr

/-- Embedding of `SearchAPI.call`: validates that the supplied session is a
`LibIOSession` (raising `InvalidSessionClassSupplied` otherwise, which
propagates to the caller) and delegates to `make_request` with the search
handlers and the `GET` default verb. -/
def SearchAPI.call (op : SearchOperationTypes) (sess : SessObj) (kwargs : Kwargs)
    (http : HttpRequest → Except PyError HttpResponse) :
    Except PyError (PyObj × LibIOSessionBase × List HttpRequest) :=
  if sess.kind ≠ SessKind.session then .error .invalidSessionClassSupplied
  else
    .ok (LibIOSession.make_request sess.state HttpOperation.get
      (some (SearchAPI.uri_handler op)) (some (SearchAPI.param_handler op)) [] kwargs http)

/-- Embedding of `SubscribeAPI.call`: same session-class validation, then
`make_request` with the subscribe handlers and the caller-supplied verb. -/
def SubscribeAPI.call (op : SubscribeOperationTypes) (sess : SessObj)
    (req_type : HttpOperation) (args : List KwVal) (kwargs : Kwargs)
    (http : HttpRequest → Except PyError HttpResponse) :
    Except PyError (PyObj × LibIOSessionBase × List HttpRequest) :=
  if sess.kind ≠ SessKind.session then .error .invalidSessionClassSupplied
  else
    .ok (LibIOSession.make_request sess.state req_type
      (some (SubscribeAPI.uri_handler op)) (some (SubscribeAPI.param_handler op)) args kwargs http)

/-- The state of a `LibIOIterableRequest` iterator: its own session, the
pagination cursor `current_page`, and the stored call ingredients
(`self.args`, `self.kwargs`, and the two handlers kept inside `self.kwargs`).
Construction happens through `LibIOIterableRequest.init`; advancing through
`LibIOIterableRequest.next`. -/
structure LibIOIterableRequest where
  sess : LibIOSessionBase
  current_page : Int
  uri_handler : Option UriHandler
  param_handler : Option ParamHandler
  args : List KwVal
  kwargs : Kwargs

/-- Embedding of `LibIOIterableRequest.__init__`.  The keyword arguments
`api_key`, `sess` and `from_page` are read with the `setdefault` fallbacks
`""`, `None` and `QB_DEFAULT_PAGE`; a verb other than `GET` raises
`ValueError` at once; so does having neither a session nor an API key.  With
no session supplied, a fresh `LibIOSessionBase` is built from the key (a
non-empty explicit key, so the environment is not consulted) and primed with
`get_session`.  With a session supplied, the source runs
`self.sess.set_key(kwargs["api_key"])` before any assignment to `self.sess`,
so Python raises `AttributeError` on this branch. -/
def LibIOIterableRequest.init (req_type : HttpOperation)
    (uri_handler : Option UriHandler) (param_handler : Option ParamHandler)
    (args : List KwVal) (api_key : Option String) (sess : Option LibIOSessionBase)
    (from_page : Option Int) (kwargs : Kwargs) : Except PyError LibIOIterableRequest :=
  if req_type ≠ HttpOperation.get then
    .error (.valueError "Iterated Request type can only be of type `get`.")
  else
    let api_key := api_key.getD ""
    let from_page := from_page.getD QB_DEFAULT_PAGE
    if sess = none ∧ api_key = "" then
      .error (.valueError "Cannot create request without a valid session or API key.")
    else
      match sess with
      | none =>
        match LibIOSessionBase.init api_key none with
        | .error e => .error e
        | .ok s0 =>
          match s0.get_session req_type none none false false with
          | .error e => .error e
          | .ok s1 => .ok ⟨s1, from_page, uri_handler, param_handler, args, kwargs⟩
      | some _ =>
        .error (.attributeError "LibIOIterableRequest object has no attribute sess")

/-- The observable outcome of one `__next__` call: a yielded page, the
`StopIteration` signal, or a re-raised `TypeError`. -/
inductive NextRes
  | yielded (v : PyObj)
  | stop
  | tyErr
deriving DecidableEq, Repr

/-- Embedding of `LibIOIterableRequest.__next__` (with
`_make_paginated_request` inlined): `self.kwargs["page"]` is set to the
cursor, one request is made through `request_factory`, and the outcome is
classified: an empty page raises `PaginationReceivedAnEmptyPageError`, turned
into `StopIteration`; a non-empty page increments the cursor and is returned;
`HTTPError` is logged and becomes `StopIteration`; `TypeError` is re-raised;
any other exception is logged and becomes `StopIteration`. -/
def LibIOIterableRequest.next (http : HttpRequest → Except PyError HttpResponse)
    (it : LibIOIterableRequest) : LibIOIterableRequest × NextRes :=
  let kwargs := it.kwargs.set "page" (.int it.current_page)
  let rf := it.sess.request_factory HttpOperation.get it.uri_handler it.param_handler
    it.args kwargs http
  let it' : LibIOIterableRequest := { it with sess := rf.sess, kwargs := kwargs }
  match rf.result with
  | .ok v =>
    if v.falsy then (it', .stop)
    else ({ it' with current_page := it'.current_page + 1 }, .yielded v)
  | .error .typeError => (it', .tyErr)
  | .error _ => (it', .stop)

/-- Embedding of `SearchAPI.call_iterated`: validates the session class, then
constructs a `LibIOIterableRequest` with the default `GET` verb, the search
handlers, and `api_key=sess.get_key()` (the key copied out of the session; no
`sess` keyword is forwarded). -/
def SearchAPI.call_iterated (op : SearchOperationTypes) (sess : SessObj) (kwargs : Kwargs) :
    Except PyError LibIOIterableRequest :=
  if sess.kind ≠ SessKind.session then .error .invalidSessionClassSupplied
  else
    match sess.state.get_key with
    | .error e => .error e
    | .ok k =>
      LibIOIterableRequest.init HttpOperation.get
        (some (SearchAPI.uri_handler op)) (some (SearchAPI.param_handler op))
        [] (some k) none (kwargs.lookup "from_page" |>.bind fun v =>
          match v with | .int i => some i | _ => none) kwargs

/-- Embedding of `SubscribeAPI.call_iterated`: validates the session class,
raises `InvalidHTTPOperationSupplied` for any verb other than `GET` before the
iterator is constructed, then builds the iterator as the search variant does. -/
def SubscribeAPI.call_iterated (op : SubscribeOperationTypes) (sess : SessObj)
    (req_type : HttpOperation) (args : List KwVal) (kwargs : Kwargs) :
    Except PyError LibIOIterableRequest :=
  if sess.kind ≠ SessKind.session then .error .invalidSessionClassSupplied
  else if req_type ≠ HttpOperation.get then .error .invalidHTTPOperationSupplied
  else
    match sess.state.get_key with
    | .error e => .error e
    | .ok k =>
      LibIOIterableRequest.init req_type
        (some (SubscribeAPI.uri_handler op)) (some (SubscribeAPI.param_handler op))
        args (some k) none (kwargs.lookup "from_page" |>.bind fun v =>
          match v with | .int i => some i | _ => none) kwargs

/-- A canned transport: pages 1 and 2 answer with 30 items, page 3 with an
empty collection (the 3-page sequence of the spec's pagination example). -/
def http_pages3 : HttpRequest → Except PyError HttpResponse := fun req =>
  if req.params.page = some 3 then .ok ⟨200, "[]", some (.list [])⟩
  else .ok ⟨200, "items", some (.list (List.replicate 30 "item"))⟩

/-- A canned transport answering every request with a one-item collection. -/
def http_one_item : HttpRequest → Except PyError HttpResponse := fun _ =>
  .ok ⟨200, "items", some (.list ["item"])⟩

/-- A sample session state holding the API key `"k"` and no parameters. -/
def sample_sess : LibIOSessionBase := ⟨some "k", Params.clear⟩

/-- A canned transport answering every request with status 204 and an empty
body (what libraries.io answers to a successful delete). -/
def http_delete204 : HttpRequest → Except PyError HttpResponse := fun _ =>
  .ok ⟨204, "", none⟩

/-- The parameter-dictionary transformation `get_session` performs on the
`force_recreate=False` branch once `get_key` has returned `k`: inject the API
key, optionally set the prerelease flag, and for `GET` normalise the
pagination keys.  `get_session_eq` proves `get_session` equal to it. -/
def session_inject (p : Params) (rt : HttpOperation) (page ipp : Option Int)
    (pre : Bool) (k : String) : Params :=
  let p1 := { p with api_key := some k }
  let p2 := if pre then { p1 with include_prerelease := some true } else p1
  if rt = HttpOperation.get then (fix_pages p2 page ipp).1 else p2

/-- A parameter handler is stable when it never touches the four keys owned
by `get_session` (`api_key`, `include_prerelease`, `page`, `per_page`) and is
idempotent for fixed keyword arguments.  Both repository handlers are stable
(`SearchAPI_param_handler_stable`, `SubscribeAPI_param_handler_stable`);
stability is what makes a repeated identical request observationally
identical. -/
def PHStable (ph : ParamHandler) : Prop :=
  (∀ p kw, ((ph p kw).1.api_key = p.api_key ∧ (ph p kw).1.include_prerelease = p.include_prerelease
      ∧ (ph p kw).1.page = p.page ∧ (ph p kw).1.per_page = p.per_page))
  ∧ (∀ p kw, ph ((ph p kw).1) kw = ph p kw)

/-- A concrete iterator state whose next request raises `TypeError`: the
`platform` keyword argument holds an integer, so the URI join fails. -/
def sample_iter_typeerr : LibIOIterableRequest :=
  ⟨sample_sess, 1, some (SearchAPI.uri_handler .project),
    some (SearchAPI.param_handler .project), [],
    [("platform", KwVal.int 7), ("project", KwVal.str "x")]⟩

/-- A concrete iterator state for the `PLATFORMS` operation, as
`LibIOIterableRequest.init` builds it from the bare key `"k"` with
`from_page = 1`. -/
def sample_iter_pages : LibIOIterableRequest :=
  ⟨⟨some "k", { api_key := some "k", page := some 1, per_page := some 30 }⟩, 1,
    some (SearchAPI.uri_handler .platforms), some (SearchAPI.param_handler .platforms), [], []⟩

end Quibraries

namespace Quibraries

/-- Clamping a page value to `max · 1` is idempotent. -/
theorem clamp_page_idem (x : Int) : max (max x 1) 1 = max x 1 := by omega

/-- Clamping a per-page value into `[1, 100]` is idempotent. -/
theorem clamp_per_page_idem (x : Int) :
    min (max (min (max x 1) 100) 1) 100 = min (max x 1) 100 := by omega

/-- C1: for every pair of inputs `page`, `per_page` (each possibly unset, in
which case the prior session value or the defaults `page = 1`,
`per_page = 30` are used), `fix_pages` stores `page' = max(page, 1)` and
`per_page' = min(max(per_page, 1), 100)`, so `1 ≤ page'` and
`1 ≤ per_page' ≤ 100` always hold; it is idempotent (both re-normalising with
the same requests and re-normalising the stored values change nothing); and
its boolean result is true exactly when the normalised values equal the
requested ones. -/
theorem fix_pages_normalises (params : Params) (page per_page : Option Int) :
    (fix_pages params page per_page).1.page =
        some (max (page.getD (params.page.getD QB_DEFAULT_PAGE)) 1)
    ∧ (fix_pages params page per_page).1.per_page =
        some (min (max (per_page.getD (params.per_page.getD QB_DEFAULT_PER_PAGE)) 1) 100)
    ∧ (1 : Int) ≤ max (page.getD (params.page.getD QB_DEFAULT_PAGE)) 1
    ∧ (1 : Int) ≤ min (max (per_page.getD (params.per_page.getD QB_DEFAULT_PER_PAGE)) 1) 100
    ∧ min (max (per_page.getD (params.per_page.getD QB_DEFAULT_PER_PAGE)) 1) 100 ≤ 100
    ∧ (fix_pages (fix_pages params page per_page).1 page per_page).1 =
        (fix_pages params page per_page).1
    ∧ fix_pages (fix_pages params page per_page).1 none none =
        ((fix_pages params page per_page).1, true)
    ∧ ((fix_pages params page per_page).2 = true ↔
        (max (page.getD (params.page.getD QB_DEFAULT_PAGE)) 1 =
            page.getD (params.page.getD QB_DEFAULT_PAGE)
          ∧ min (max (per_page.getD (params.per_page.getD QB_DEFAULT_PER_PAGE)) 1) 100 =
            per_page.getD (params.per_page.getD QB_DEFAULT_PER_PAGE))) := by
  obtain ⟨ak, ip, pg, ppg, qv, sv, la, lb, lc, ld⟩ := params
  rcases page with _ | p <;> rcases per_page with _ | pp <;>
    rcases pg with _ | pgv <;> rcases ppg with _ | ppv <;>
      simp only [fix_pages, Option.getD_some, Option.getD_none, QB_DEFAULT_PAGE,
        QB_DEFAULT_PER_PAGE, clamp_page_idem, clamp_per_page_idem, Prod.mk.injEq,
        Params.mk.injEq, Option.some.injEq, Bool.and_eq_true, beq_iff_eq,
        beq_self_eq_true, Bool.and_self, and_self, and_true, true_and] <;>
      first
      | rfl
      | decide
      | omega

/-- The `fix_pages` update touches only the `page` and `per_page` keys. -/
theorem fix_pages_fields (p : Params) (a b : Option Int) :
    (fix_pages p a b).1 =
      { p with
        page := some (max (a.getD (p.page.getD QB_DEFAULT_PAGE)) 1),
        per_page := some (min (max (b.getD (p.per_page.getD QB_DEFAULT_PER_PAGE)) 1) 100) } := by
  rcases a with _ | av <;> rcases b with _ | bv <;>
    rcases hp : p.page with _ | pv <;> rcases hq : p.per_page with _ | qv <;>
      simp [fix_pages, hp, hq]

/-- On success, `get_key` returns exactly the stored key. -/
theorem get_key_eq (s : LibIOSessionBase) (k : String) (h : s.get_key = .ok k) :
    s.api_key = some k := by
  unfold LibIOSessionBase.get_key at h
  rcases hs : s.api_key with _ | k'
  · rw [hs] at h; cases h
  · rw [hs] at h
    by_cases he : k' = "" <;> simp [he] at h <;> simp [h]

/-- C10: rebuilding the session with `force_recreate=True` resets the
parameter dictionary without injecting the API key (the key is written into
the parameters only on the `force_recreate=False` branch), so the rebuilt
session's parameters carry no `api_key` entry, even though the session object
itself still holds the key. -/
theorem get_session_force_recreate_drops_api_key
    (s s' s'' : LibIOSessionBase) (req_type : HttpOperation)
    (page items_per_page : Option Int) (include_prerelease : Bool) (k : String)
    (hk : s.get_key = .ok k)
    (h1 : s.get_session req_type page items_per_page true include_prerelease = .ok s')
    (h2 : s.get_session req_type page items_per_page false include_prerelease = .ok s'') :
    s'.params.api_key = none ∧ s'.api_key = s.api_key ∧ s''.params.api_key = some k := by
  have hak := get_key_eq s k hk
  unfold LibIOSessionBase.get_session at h1 h2
  rw [hk] at h1 h2
  simp at h1 h2
  subst h1; subst h2
  refine ⟨?_, ?_, ?_⟩ <;>
    split <;> split <;>
      simp [fix_pages_fields, Params.clear, hak]

/-- C10 witness: the theorem at a concrete session holding the key `"k"`. -/
theorem get_session_force_recreate_drops_api_key_witness :
    (⟨some "k", { page := some 1, per_page := some 30 }⟩ : LibIOSessionBase).params.api_key = none
    ∧ (⟨some "k", { page := some 1, per_page := some 30 }⟩ : LibIOSessionBase).api_key =
        sample_sess.api_key
    ∧ (⟨some "k", { api_key := some "k", page := some 1, per_page := some 30 }⟩ :
        LibIOSessionBase).params.api_key = some "k" :=
  get_session_force_recreate_drops_api_key sample_sess
    ⟨some "k", { page := some 1, per_page := some 30 }⟩
    ⟨some "k", { api_key := some "k", page := some 1, per_page := some 30 }⟩
    .get none none false "k" rfl rfl rfl

/-- C7: a single-shot call through `make_request` always leaves the session
parameter dictionary cleared — whatever the outcome of the underlying request
(success, HTTP error, retry exhaustion, or any other exception), the
`finally` clause removes every transient entry, so no filter, sort or query
state set during one call is observable in the parameters of the next. -/
theorem make_request_always_clears_params (s : LibIOSessionBase) (req_type : HttpOperation)
    (uri_handler : Option UriHandler) (param_handler : Option ParamHandler)
    (args : List KwVal) (kwargs : Kwargs)
    (http : HttpRequest → Except PyError HttpResponse) :
    (LibIOSession.make_request s req_type uri_handler param_handler args kwargs http).2.1.params =
        Params.clear
    ∧ (LibIOSession.make_request s req_type uri_handler param_handler args kwargs http).2.1.params.q
        = none
    ∧ (LibIOSession.make_request s req_type uri_handler param_handler args kwargs
        http).2.1.params.sort = none
    ∧ (LibIOSession.make_request s req_type uri_handler param_handler args kwargs
        http).2.1.params.languages = none
    ∧ (LibIOSession.make_request s req_type uri_handler param_handler args kwargs
        http).2.1.params.licenses = none
    ∧ (LibIOSession.make_request s req_type uri_handler param_handler args kwargs
        http).2.1.params.keywords = none
    ∧ (LibIOSession.make_request s req_type uri_handler param_handler args kwargs
        http).2.1.params.platforms = none := by
  simp [LibIOSession.make_request, LibIOSessionBase.clear_session_params, Params.clear]

/-- C4 (code bug): with no explicit key and no key in the environment, the
`LibIOSessionBase` constructor raises `APIKeyMissingError` at construction
(through `_create_session` → `set_key(get_key())`), not lazily at the first
request as the spec and the constructor's own docstring state; with a key
available in either source, construction succeeds and stores it. -/
theorem sessionBase_init_raises_eagerly_without_key :
    LibIOSessionBase.init "" none = .error .apiKeyMissingError
    ∧ LibIOSessionBase.init "" (some "") = .error .apiKeyMissingError
    ∧ LibIOSessionBase.init "" (some "envkey") = .ok ⟨some "envkey", Params.clear⟩
    ∧ LibIOSessionBase.init "argkey" none = .ok ⟨some "argkey", Params.clear⟩ := by
  refine ⟨rfl, rfl, rfl, rfl⟩

/-- C6 counterexample: HTTP status 301 is not a 2xx status, yet the response
handling does not raise on it: `raise_for_status` raises only for 4xx/5xx
statuses, so the decoded body of a 301 response is returned as a success. -/
theorem handle_response_counterexample_301 :
    handle_response HttpOperation.get ⟨301, "x", some (.dict [("a", "b")])⟩ =
      .ok (.dict [("a", "b")])
    ∧ ¬ (200 ≤ 301 ∧ 301 < 300) := by
  exact ⟨rfl, by omega⟩

/-- C6 (amended): a `DELETE` answered by HTTP 204 with an empty body does not
raise and does not return an empty mapping: it returns the synthetic success
payload keyed by `"status"`; and every 4xx or 5xx status makes the request
layer raise `HTTPError` (statuses outside 2xx but also outside 4xx/5xx, such
as 3xx, are not raised on).  The last conjunct runs the full `request_factory`
on a delete answered by 204/empty. -/
theorem delete_204_synthetic_success (resp : HttpResponse) (req_type : HttpOperation)
    (j : Option PyObj) (h4 : 400 ≤ resp.status) (h6 : resp.status < 600) :
    handle_response HttpOperation.delete ⟨204, "", j⟩ = .ok synthetic_delete_payload
    ∧ synthetic_delete_payload ≠ .dict []
    ∧ handle_response req_type resp = .error (.httpError resp.status)
    ∧ (sample_sess.request_factory HttpOperation.delete
        (some (SubscribeAPI.uri_handler .userSubscriptions))
        (some (SubscribeAPI.param_handler .userSubscriptions)) [] [] http_delete204).result =
        .ok synthetic_delete_payload := by
  refine ⟨rfl, ?_, ?_, rfl⟩
  · simp [synthetic_delete_payload]
  · unfold handle_response
    rw [if_pos ⟨h4, h6⟩]

/-- C6 witness: the amended theorem at a concrete 404 response. -/
theorem delete_204_synthetic_success_witness :
    handle_response HttpOperation.delete ⟨204, "", none⟩ = .ok synthetic_delete_payload
    ∧ synthetic_delete_payload ≠ .dict []
    ∧ handle_response HttpOperation.get ⟨404, "x", none⟩ = .error (.httpError 404)
    ∧ (sample_sess.request_factory HttpOperation.delete
        (some (SubscribeAPI.uri_handler .userSubscriptions))
        (some (SubscribeAPI.param_handler .userSubscriptions)) [] [] http_delete204).result =
        .ok synthetic_delete_payload :=
  delete_204_synthetic_success ⟨404, "x", none⟩ HttpOperation.get none (by decide) (by decide)

/-- C5 counterexample: a single-shot search call for `PROJECT` with no
arguments raises `ArgumentMissingError` inside `request_factory` (second
conjunct), yet `SearchAPI.call` returns the empty mapping instead of
propagating the error (first conjunct): `make_request` catches every
`Exception`, logs it and falls back to the empty result. -/
theorem single_shot_swallows_config_error :
    SearchAPI.call .project ⟨SessKind.session, sample_sess⟩ [] http_one_item =
      .ok (.dict [], ⟨some "k", Params.clear⟩, [])
    ∧ (sample_sess.request_factory HttpOperation.get
        (some (SearchAPI.uri_handler .project)) (some (SearchAPI.param_handler .project))
        [] [] http_one_item).result = .error (.argumentMissingError "platform") :=
  ⟨rfl, rfl⟩

/-- C5 (amended): the invalid-session-class error raised at the facade
boundary always propagates to the caller; but every configuration error
raised inside the single-shot call itself (missing API key at request time,
missing named argument, unnamed positional argument, unsupported verb) is
caught by the catch-all handler of `make_request`, logged, and replaced by
the empty result. -/
theorem config_error_propagation :
    (∀ (op : SearchOperationTypes) (sess : SessObj) (kwargs : Kwargs)
        (http : HttpRequest → Except PyError HttpResponse),
        sess.kind ≠ SessKind.session →
        SearchAPI.call op sess kwargs http = .error .invalidSessionClassSupplied)
    ∧ (∀ (op : SubscribeOperationTypes) (sess : SessObj) (req_type : HttpOperation)
        (args : List KwVal) (kwargs : Kwargs)
        (http : HttpRequest → Except PyError HttpResponse),
        sess.kind ≠ SessKind.session →
        SubscribeAPI.call op sess req_type args kwargs http =
          .error .invalidSessionClassSupplied)
    ∧ (∀ (s : LibIOSessionBase) (req_type : HttpOperation) (uh : Option UriHandler)
        (ph : Option ParamHandler) (args : List KwVal) (kwargs : Kwargs)
        (http : HttpRequest → Except PyError HttpResponse) (e : PyError),
        (s.request_factory req_type uh ph args kwargs http).result = .error e →
        (LibIOSession.make_request s req_type uh ph args kwargs http).1 = .dict []) := by
  refine ⟨?_, ?_, ?_⟩
  · intro op sess kwargs http hkind
    simp [SearchAPI.call, hkind]
  · intro op sess req_type args kwargs http hkind
    simp [SubscribeAPI.call, hkind]
  · intro s req_type uh ph args kwargs http e h
    simp [LibIOSession.make_request, h]

/-- C5 witness: the amended theorem at concrete inputs: a base-class session
is rejected with the propagating error, and a `PROJECT` call with a missing
argument yields the empty mapping. -/
theorem config_error_propagation_witness :
    SearchAPI.call .project ⟨SessKind.base, sample_sess⟩ [] http_one_item =
      .error .invalidSessionClassSupplied
    ∧ (LibIOSession.make_request sample_sess HttpOperation.get
        (some (SearchAPI.uri_handler .project)) (some (SearchAPI.param_handler .project))
        [] [] http_one_item).1 = .dict [] :=
  ⟨config_error_propagation.1 .project ⟨SessKind.base, sample_sess⟩ [] http_one_item
      (by decide),
   config_error_propagation.2.2 sample_sess HttpOperation.get
      (some (SearchAPI.uri_handler .project)) (some (SearchAPI.param_handler .project))
      [] [] http_one_item (.argumentMissingError "platform") rfl⟩

/-- C3: for every verb other than `GET`, constructing a paginating iterator
fails at once, before any request could be dispatched: the public subscribe
facade raises `InvalidHTTPOperationSupplied` even before running the
constructor, and the constructor itself raises `ValueError`.  Neither the
facade nor the constructor receives the transport, so no request can be
formed on these paths (the search facade hard-codes `GET`). -/
theorem iterated_request_requires_get (req_type : HttpOperation)
    (h : req_type ≠ HttpOperation.get) :
    (∀ (op : SubscribeOperationTypes) (sess : SessObj) (args : List KwVal) (kwargs : Kwargs),
        sess.kind = SessKind.session →
        SubscribeAPI.call_iterated op sess req_type args kwargs =
          .error .invalidHTTPOperationSupplied)
    ∧ (∀ (uh : Option UriHandler) (ph : Option ParamHandler) (args : List KwVal)
        (api_key : Option String) (sess0 : Option LibIOSessionBase)
        (from_page : Option Int) (kwargs : Kwargs),
        LibIOIterableRequest.init req_type uh ph args api_key sess0 from_page kwargs =
          .error (.valueError "Iterated Request type can only be of type `get`.")) := by
  constructor
  · intro op sess args kwargs hkind
    simp [SubscribeAPI.call_iterated, hkind, h]
  · intro uh ph args api_key sess0 from_page kwargs
    simp [LibIOIterableRequest.init, h]

/-- C3 witness: the theorem at the concrete verb `POST`. -/
theorem iterated_request_requires_get_witness :
    SubscribeAPI.call_iterated .userSubscriptions ⟨SessKind.session, sample_sess⟩
        HttpOperation.post [] [] = .error .invalidHTTPOperationSupplied
    ∧ LibIOIterableRequest.init HttpOperation.post none none [] none none none [] =
        .error (.valueError "Iterated Request type can only be of type `get`.") :=
  ⟨(iterated_request_requires_get HttpOperation.post (by decide)).1 .userSubscriptions
      ⟨SessKind.session, sample_sess⟩ [] [] rfl,
   (iterated_request_requires_get HttpOperation.post (by decide)).2 none none [] none none
      none []⟩

/-- C9 (code bug): of the two documented construction paths of the iterator,
only the bare-API-key one works.  Passing an existing session raises
`AttributeError`, because the constructor's session branch calls
`self.sess.set_key(...)` before `self.sess` is ever assigned; the bare-key
path succeeds in state `Ready(page = from_page)`, with `from_page` defaulting
to 1. -/
theorem iterable_request_session_path_broken :
    LibIOIterableRequest.init HttpOperation.get (some (SearchAPI.uri_handler .platforms))
        (some (SearchAPI.param_handler .platforms)) [] (some "key") (some sample_sess) none []
      = .error (.attributeError "LibIOIterableRequest object has no attribute sess")
    ∧ (LibIOIterableRequest.init HttpOperation.get (some (SearchAPI.uri_handler .platforms))
        (some (SearchAPI.param_handler .platforms)) [] (some "key") none none []).map
        (fun it => it.current_page) = .ok QB_DEFAULT_PAGE
    ∧ (LibIOIterableRequest.init HttpOperation.get (some (SearchAPI.uri_handler .platforms))
        (some (SearchAPI.param_handler .platforms)) [] (some "key") none (some 5) []).map
        (fun it => it.current_page) = .ok 5 :=
  ⟨rfl, rfl, rfl⟩

/-- With at least one of the looked-up keys absent, `from_kwargs` raises
`ArgumentMissingError` naming an absent key (the first one in order). -/
theorem from_kwargs_missing (keys : List ArgumentTypes) (kwargs : Kwargs)
    (h : ∃ k ∈ keys, kwargs.lookup k.value = none) :
    ∃ k ∈ keys, kwargs.lookup k.value = none ∧
      from_kwargs keys kwargs = .error (.argumentMissingError k.value) := by
  induction keys with
  | nil => simp at h
  | cons a rest ih =>
    rcases ha : kwargs.lookup a.value with _ | v
    · exact ⟨a, by simp, ha, by simp [from_kwargs, ha]⟩
    · have h' : ∃ k ∈ rest, kwargs.lookup k.value = none := by
        rcases h with ⟨k, hk, hnone⟩
        rcases List.mem_cons.mp hk with rfl | hk'
        · rw [ha] at hnone; cases hnone
        · exact ⟨k, hk', hnone⟩
      rcases ih h' with ⟨k, hk, hnone, heq⟩
      exact ⟨k, by simp [hk], hnone, by simp [from_kwargs, ha, heq, Except.map]⟩

/-- C8: for every search operation, and for every subscribe operation that
takes arguments, invoking the URI builder with any strict subset of the
required named arguments (so with at least one required key absent) fails
with a missing-argument error naming an absent key, and no URI is produced. -/
theorem uri_builder_missing_argument :
    (∀ (op : SearchOperationTypes) (kwargs : Kwargs),
        (∃ k ∈ SearchAPI.required_args op, kwargs.lookup k.value = none) →
        ∃ k ∈ SearchAPI.required_args op, kwargs.lookup k.value = none ∧
          SearchAPI.uri_handler op [] kwargs = .error (.argumentMissingError k.value))
    ∧ (∀ (op : SubscribeOperationTypes) (kwargs : Kwargs),
        op ∉ [SubscribeOperationTypes.userSubscriptions] →
        (∃ k ∈ [ArgumentTypes.platform, ArgumentTypes.project],
            kwargs.lookup k.value = none) →
        ∃ k ∈ [ArgumentTypes.platform, ArgumentTypes.project],
          kwargs.lookup k.value = none ∧
          SubscribeAPI.uri_handler op [] kwargs = .error (.argumentMissingError k.value)) := by
  constructor
  · intro op kwargs h
    rcases from_kwargs_missing (SearchAPI.required_args op) kwargs h with ⟨k, hk, hnone, heq⟩
    exact ⟨k, hk, hnone, by simp [SearchAPI.uri_handler, heq]⟩
  · intro op kwargs hop h
    have hop' : op ≠ SubscribeOperationTypes.userSubscriptions := by simpa using hop
    rcases from_kwargs_missing [ArgumentTypes.platform, ArgumentTypes.project] kwargs h with
      ⟨k, hk, hnone, heq⟩
    exact ⟨k, hk, hnone, by simp [SubscribeAPI.uri_handler, hop', heq]⟩

/-- C8 witness: the theorem at `PROJECT` with only `platform` supplied. -/
theorem uri_builder_missing_argument_witness :
    ∃ k ∈ SearchAPI.required_args SearchOperationTypes.project,
      (([("platform", KwVal.str "pypi")] : Kwargs).lookup k.value = none ∧
        SearchAPI.uri_handler .project [] [("platform", KwVal.str "pypi")] =
          .error (.argumentMissingError k.value)) :=
  uri_builder_missing_argument.1 .project [("platform", KwVal.str "pypi")] (by decide)

/-- A key that `lookup` does not find heads no entry of the list. -/
theorem lookup_none_forall {kw : Kwargs} {k : String} (h : kw.lookup k = none) :
    ∀ a ∈ kw, a.1 ≠ k := by
  induction kw with
  | nil => simp
  | cons a l ih =>
    rcases a with ⟨a1, a2⟩
    by_cases ha : k = a1
    · subst ha; simp [List.lookup_cons] at h
    · intro b hb
      rcases List.mem_cons.mp hb with rfl | hb'
      · simpa [eq_comm] using ha
      · have h' : l.lookup k = none := by
          simpa [List.lookup_cons, beq_false_of_ne ha] using h
        exact ih h' b hb'

theorem lookup_append_of_none {kw : Kwargs} {k : String} (l : Kwargs)
    (h : kw.lookup k = none) : (kw ++ l).lookup k = l.lookup k := by
  induction kw with
  | nil => simp
  | cons a t ih =>
    rcases a with ⟨a1, a2⟩
    by_cases ha : k = a1
    · subst ha; simp [List.lookup_cons] at h
    · simp only [List.lookup_cons, beq_false_of_ne ha, List.cons_append] at h ⊢
      exact ih h

theorem lookup_map_replace (kw : Kwargs) (k : String) (v : KwVal)
    (h : (kw.lookup k).isSome) :
    (kw.map fun kv => if kv.1 = k then (k, v) else kv).lookup k = some v := by
  induction kw with
  | nil => simp at h
  | cons a t ih =>
    rcases a with ⟨a1, a2⟩
    by_cases ha : a1 = k
    · subst ha
      simp [List.lookup_cons]
    · have hne : k ≠ a1 := fun hh => ha hh.symm
      simp only [List.map, if_neg ha, List.lookup_cons, beq_false_of_ne hne] at h ⊢
      exact ih h

theorem lookup_set_self (kw : Kwargs) (k : String) (v : KwVal) :
    (kw.set k v).lookup k = some v := by
  unfold Kwargs.set
  rcases h : kw.lookup k with _ | w
  · simp only [h, Option.isSome_none, Bool.false_eq_true, if_false]
    rw [lookup_append_of_none _ h]
    simp [List.lookup_cons]
  · have hs : (kw.lookup k).isSome := by simp [h]
    simp [hs]
    exact lookup_map_replace kw k v hs


theorem set_of_lookup_some {kw : Kwargs} {k : String} {w : KwVal} (v : KwVal)
    (h : kw.lookup k = some w) :
    kw.set k v = kw.map fun kv => if kv.1 = k then (k, v) else kv := by
  simp [Kwargs.set, h]

theorem map_replace_idem (kw : Kwargs) (k : String) (v : KwVal) :
    ((kw.map fun kv => if kv.1 = k then (k, v) else kv).map
        fun kv => if kv.1 = k then (k, v) else kv) =
      kw.map fun kv => if kv.1 = k then (k, v) else kv := by
  rw [List.map_map]
  apply List.map_congr_left
  intro a _
  by_cases ha : a.1 = k <;> simp [Function.comp, ha]

theorem set_set_self (kw : Kwargs) (k : String) (v : KwVal) :
    (kw.set k v).set k v = kw.set k v := by
  rw [set_of_lookup_some v (lookup_set_self kw k v)]
  rcases h : kw.lookup k with _ | w
  · have h1 : kw.set k v = kw ++ [(k, v)] := by simp [Kwargs.set, h]
    rw [h1, List.map_append]
    have hall := lookup_none_forall h
    have hkw : (kw.map fun kv => if kv.1 = k then (k, v) else kv) = kw := by
      calc (kw.map fun kv => if kv.1 = k then (k, v) else kv) = kw.map id :=
            List.map_congr_left (fun a ha => by simp [if_neg (hall a ha)])
        _ = kw := List.map_id kw
    rw [hkw]
    simp [h1]
  · rw [set_of_lookup_some v h]
    exact map_replace_idem kw k v

/-- With `get_key` succeeding, `get_session` without `force_recreate` applies
exactly the `session_inject` transformation to the parameter dictionary. -/
theorem get_session_eq (s : LibIOSessionBase) (rt : HttpOperation)
    (page ipp : Option Int) (pre : Bool) (k : String) (hk : s.get_key = .ok k) :
    s.get_session rt page ipp false pre =
      .ok { s with params := session_inject s.params rt page ipp pre k } := by
  unfold LibIOSessionBase.get_session session_inject
  rw [hk]
  by_cases hpre : pre <;> by_cases hrt : rt = HttpOperation.get <;> simp [hpre, hrt]

/-- Inversion of a successful `get_session` without `force_recreate`. -/
theorem get_session_ok_inv (s s1 : LibIOSessionBase) (rt : HttpOperation)
    (page ipp : Option Int) (pre : Bool)
    (h : s.get_session rt page ipp false pre = .ok s1) :
    ∃ k, s.get_key = .ok k ∧
      s1 = { s with params := session_inject s.params rt page ipp pre k } := by
  rcases hk : s.get_key with e | k
  · unfold LibIOSessionBase.get_session at h
    rw [hk] at h
    cases h
  · refine ⟨k, rfl, ?_⟩
    rw [get_session_eq s rt page ipp pre k hk] at h
    exact (Except.ok.injEq _ _).mp h.symm

/-- Two session states with the same stored key agree on `get_key`. -/
theorem get_key_congr (s t : LibIOSessionBase) (h : s.api_key = t.api_key) :
    s.get_key = t.get_key := by
  unfold LibIOSessionBase.get_key
  rw [h]

/-- The key `session_inject` writes into `api_key`. -/
theorem session_inject_api_key (p : Params) (rt : HttpOperation) (page ipp : Option Int)
    (pre : Bool) (k : String) :
    (session_inject p rt page ipp pre k).api_key = some k := by
  unfold session_inject
  by_cases hrt : rt = HttpOperation.get <;> cases pre <;> simp [hrt, fix_pages_fields]

/-- The `include_prerelease` entry after `session_inject`. -/
theorem session_inject_prerelease (p : Params) (rt : HttpOperation) (page ipp : Option Int)
    (pre : Bool) (k : String) :
    (session_inject p rt page ipp pre k).include_prerelease =
      if pre then some true else p.include_prerelease := by
  unfold session_inject
  by_cases hrt : rt = HttpOperation.get <;> cases pre <;> simp [hrt, fix_pages_fields]

/-- The `page` entry after `session_inject`. -/
theorem session_inject_page (p : Params) (rt : HttpOperation) (page ipp : Option Int)
    (pre : Bool) (k : String) :
    (session_inject p rt page ipp pre k).page =
      if rt = HttpOperation.get then some (max (page.getD (p.page.getD QB_DEFAULT_PAGE)) 1)
      else p.page := by
  unfold session_inject
  by_cases hrt : rt = HttpOperation.get <;> cases pre <;> simp [hrt, fix_pages_fields]

/-- The `per_page` entry after `session_inject`. -/
theorem session_inject_per_page (p : Params) (rt : HttpOperation) (page ipp : Option Int)
    (pre : Bool) (k : String) :
    (session_inject p rt page ipp pre k).per_page =
      if rt = HttpOperation.get then
        some (min (max (ipp.getD (p.per_page.getD QB_DEFAULT_PER_PAGE)) 1) 100)
      else p.per_page := by
  unfold session_inject
  by_cases hrt : rt = HttpOperation.get <;> cases pre <;> simp [hrt, fix_pages_fields]

/-- `session_inject` leaves the six remaining entries untouched. -/
theorem session_inject_rest (p : Params) (rt : HttpOperation) (page ipp : Option Int)
    (pre : Bool) (k : String) :
    (session_inject p rt page ipp pre k).q = p.q
    ∧ (session_inject p rt page ipp pre k).sort = p.sort
    ∧ (session_inject p rt page ipp pre k).languages = p.languages
    ∧ (session_inject p rt page ipp pre k).licenses = p.licenses
    ∧ (session_inject p rt page ipp pre k).keywords = p.keywords
    ∧ (session_inject p rt page ipp pre k).platforms = p.platforms := by
  unfold session_inject
  by_cases hrt : rt = HttpOperation.get <;> cases pre <;> simp [hrt, fix_pages_fields]

/-- Re-applying `session_inject` to parameters that already agree with an
injected dictionary on the four injected keys changes nothing. -/
theorem session_inject_stable (p p2 : Params) (rt : HttpOperation)
    (page ipp : Option Int) (pre : Bool) (k : String)
    (h1 : p2.api_key = (session_inject p rt page ipp pre k).api_key)
    (h2 : p2.include_prerelease = (session_inject p rt page ipp pre k).include_prerelease)
    (h3 : p2.page = (session_inject p rt page ipp pre k).page)
    (h4 : p2.per_page = (session_inject p rt page ipp pre k).per_page) :
    session_inject p2 rt page ipp pre k = p2 := by
  rw [session_inject_api_key] at h1
  rw [session_inject_prerelease] at h2
  rw [session_inject_page] at h3
  rw [session_inject_per_page] at h4
  apply Params.ext
  · rw [session_inject_api_key, h1]
  · rw [session_inject_prerelease, h2]
    cases pre <;> simp
  · rw [session_inject_page, h3]
    by_cases hrt : rt = HttpOperation.get
    · rcases page with _ | pg <;> simp [hrt, clamp_page_idem]
    · simp [hrt]
  · rw [session_inject_per_page, h4]
    by_cases hrt : rt = HttpOperation.get
    · rcases ipp with _ | ip <;> simp [hrt, clamp_per_page_idem]
    · simp [hrt]
  · exact (session_inject_rest p2 rt page ipp pre k).1
  · exact (session_inject_rest p2 rt page ipp pre k).2.1
  · exact (session_inject_rest p2 rt page ipp pre k).2.2.1
  · exact (session_inject_rest p2 rt page ipp pre k).2.2.2.1
  · exact (session_inject_rest p2 rt page ipp pre k).2.2.2.2.1
  · exact (session_inject_rest p2 rt page ipp pre k).2.2.2.2.2

/-- `apply_filters` touches only the four filter keys. -/
theorem apply_filters_fields (p : Params) (fv : FiltersVal) :
    (apply_filters p fv).api_key = p.api_key
    ∧ (apply_filters p fv).include_prerelease = p.include_prerelease
    ∧ (apply_filters p fv).page = p.page
    ∧ (apply_filters p fv).per_page = p.per_page
    ∧ (apply_filters p fv).q = p.q
    ∧ (apply_filters p fv).sort = p.sort := by
  obtain ⟨f1, f2, f3, f4⟩ := fv
  rcases f1 with _ | x1 <;> rcases f2 with _ | x2 <;> rcases f3 with _ | x3 <;>
    rcases f4 with _ | x4 <;> simp [apply_filters]

/-- Re-applying the same filter dictionary changes nothing. -/
theorem apply_filters_idem (p : Params) (fv : FiltersVal) :
    apply_filters (apply_filters p fv) fv = apply_filters p fv := by
  obtain ⟨f1, f2, f3, f4⟩ := fv
  rcases f1 with _ | x1 <;> rcases f2 with _ | x2 <;> rcases f3 with _ | x3 <;>
    rcases f4 with _ | x4 <;> simp [apply_filters]

/-- The four filter keys after `apply_filters`, as functions of the
dictionary alone (an absent entry leaves the previous value). -/
theorem apply_filters_values (p : Params) (fv : FiltersVal) :
    (apply_filters p fv).languages =
      (match fv.languages with | some xs => some (xs.map quote) | none => p.languages)
    ∧ (apply_filters p fv).licenses =
      (match fv.licenses with | some xs => some (xs.map quote) | none => p.licenses)
    ∧ (apply_filters p fv).keywords =
      (match fv.keywords with | some xs => some (xs.map quote) | none => p.keywords)
    ∧ (apply_filters p fv).platforms =
      (match fv.platforms with | some xs => some (xs.map quote) | none => p.platforms) := by
  obtain ⟨f1, f2, f3, f4⟩ := fv
  rcases f1 with _ | x1 <;> rcases f2 with _ | x2 <;> rcases f3 with _ | x3 <;>
    rcases f4 with _ | x4 <;> simp [apply_filters]

/-- Re-applying the same filter dictionary to parameters that already hold
its values leaves them unchanged. -/
theorem apply_filters_stable (X Y : Params) (fv : FiltersVal)
    (h1 : X.languages = (apply_filters Y fv).languages)
    (h2 : X.licenses = (apply_filters Y fv).licenses)
    (h3 : X.keywords = (apply_filters Y fv).keywords)
    (h4 : X.platforms = (apply_filters Y fv).platforms) :
    apply_filters X fv = X := by
  obtain ⟨f1, f2, f3, f4⟩ := fv
  rcases f1 with _ | x1 <;> rcases f2 with _ | x2 <;> rcases f3 with _ | x3 <;>
    rcases f4 with _ | x4 <;> (apply Params.ext <;> simp_all [apply_filters])

set_option maxHeartbeats 2000000 in
/-- Every search parameter handler is stable. -/
theorem SearchAPI_param_handler_stable (op : SearchOperationTypes) :
    PHStable (SearchAPI.param_handler op) := by
  cases op
  case projectSearch =>
    constructor
    · intro p kw
      unfold SearchAPI.param_handler
      repeat' split
      all_goals simp_all [apply_filters_fields]
    · intro p kw
      unfold SearchAPI.param_handler
      repeat' split
      all_goals (
        simp_all [apply_filters_idem, apply_filters_fields] <;>
        (try (first
          | (refine ⟨?_, ?_, ?_, ?_⟩ <;>
              first
              | exact (congrArg Params.languages
                  (apply_filters_stable _ _ _ (by rfl) (by rfl) (by rfl) (by rfl))).trans (by rfl)
              | exact (congrArg Params.licenses
                  (apply_filters_stable _ _ _ (by rfl) (by rfl) (by rfl) (by rfl))).trans (by rfl)
              | exact (congrArg Params.keywords
                  (apply_filters_stable _ _ _ (by rfl) (by rfl) (by rfl) (by rfl))).trans (by rfl)
              | exact (congrArg Params.platforms
                  (apply_filters_stable _ _ _ (by rfl) (by rfl) (by rfl) (by rfl))).trans (by rfl))
          | exact (apply_filters_stable _ _ _ (by rfl) (by rfl) (by rfl) (by rfl)).trans
              (by apply Params.ext <;> simp [apply_filters_fields, apply_filters_values]))))
  all_goals
    exact ⟨fun p kw => by simp [SearchAPI.param_handler],
      fun p kw => by simp [SearchAPI.param_handler]⟩

/-- The subscribe parameter handler (the identity) is stable. -/
theorem SubscribeAPI_param_handler_stable (op : SubscribeOperationTypes) :
    PHStable (SubscribeAPI.param_handler op) :=
  ⟨fun p kw => by simp [SubscribeAPI.param_handler],
   fun p kw => by simp [SubscribeAPI.param_handler]⟩

/-- A session whose parameters already agree with an injected dictionary on
the four injected keys is a fixed point of `get_session`. -/
theorem get_session_stable (s s2 : LibIOSessionBase) (rt : HttpOperation)
    (page ipp : Option Int) (pre : Bool) (k : String)
    (hk : s.get_key = .ok k) (hak : s2.api_key = s.api_key)
    (h1 : s2.params.api_key = (session_inject s.params rt page ipp pre k).api_key)
    (h2 : s2.params.include_prerelease =
      (session_inject s.params rt page ipp pre k).include_prerelease)
    (h3 : s2.params.page = (session_inject s.params rt page ipp pre k).page)
    (h4 : s2.params.per_page = (session_inject s.params rt page ipp pre k).per_page) :
    s2.get_session rt page ipp false pre = .ok s2 := by
  have hk2 : s2.get_key = .ok k := by rw [get_key_congr s2 s hak]; exact hk
  rw [get_session_eq s2 rt page ipp pre k hk2]
  have hinj : session_inject s2.params rt page ipp pre k = s2.params :=
    session_inject_stable s.params s2.params rt page ipp pre k h1 h2 h3 h4
  rw [hinj]

/-- Running the request tail a second time, from the session state the first
run left behind and with the same arguments, reproduces the first run exactly
(same result, same state, same dispatched request), provided the parameter
handler is stable: the parameter updates of a request are idempotent. -/
theorem request_factory_tail_stable (s : LibIOSessionBase) (rt : HttpOperation)
    (ph : Option ParamHandler) (hph : ∀ f, ph = some f → PHStable f)
    (uri : String) (page ipp : Option Int) (kwargs : Kwargs)
    (http : HttpRequest → Except PyError HttpResponse) :
    (s.request_factory_tail rt ph uri page ipp kwargs http).sess.request_factory_tail rt ph
        uri page ipp kwargs http = s.request_factory_tail rt ph uri page ipp kwargs http := by
  unfold LibIOSessionBase.request_factory_tail
  rcases hgs : s.get_session rt page ipp false (decide (rt = HttpOperation.post)) with e | s1
  · simp only [hgs]
  · simp only [hgs]
    obtain ⟨k, hk, hs1⟩ := get_session_ok_inv s s1 rt page ipp _ hgs
    rcases ph with _ | phf
    · have hak : s1.api_key = s.api_key := by rw [hs1]
      have h1 : s1.params.api_key =
          (session_inject s.params rt page ipp (decide (rt = HttpOperation.post)) k).api_key := by
        rw [hs1]
      have h2 : s1.params.include_prerelease =
          (session_inject s.params rt page ipp (decide (rt = HttpOperation.post))
            k).include_prerelease := by
        rw [hs1]
      have h3 : s1.params.page =
          (session_inject s.params rt page ipp (decide (rt = HttpOperation.post)) k).page := by
        rw [hs1]
      have h4 : s1.params.per_page =
          (session_inject s.params rt page ipp (decide (rt = HttpOperation.post)) k).per_page := by
        rw [hs1]
      have hfix := get_session_stable s s1 rt page ipp _ k hk hak h1 h2 h3 h4
      have hmk : ({ api_key := s1.api_key, params := s1.params } : LibIOSessionBase) = s1 := rfl
      rw [hmk]
      rcases hhttp : http ⟨rt, uri, s1.params⟩ with he | resp <;>
        simp only [hhttp, hfix]
    · have hst := hph phf rfl
      rcases hph2 : phf s1.params kwargs with ⟨p2, e2⟩
      have hfields := hst.1 s1.params kwargs
      rw [hph2] at hfields
      have hidem := hst.2 s1.params kwargs
      rw [hph2] at hidem
      simp only [hph2]
      have hfix2 : ({ api_key := s1.api_key, params := p2 } : LibIOSessionBase).get_session rt
          page ipp false (decide (rt = HttpOperation.post)) =
          .ok { api_key := s1.api_key, params := p2 } := by
        apply get_session_stable s _ rt page ipp _ k hk
        · show s1.api_key = s.api_key
          rw [hs1]
        · show p2.api_key = _
          rw [hfields.1, hs1]
        · show p2.include_prerelease = _
          rw [hfields.2.1, hs1]
        · show p2.page = _
          rw [hfields.2.2.1, hs1]
        · show p2.per_page = _
          rw [hfields.2.2.2, hs1]
      rcases e2 with _ | e
      · rcases hhttp : http ⟨rt, uri, p2⟩ with he | resp <;>
          simp only [hhttp, hfix2, hidem]
      · simp only [hfix2, hidem]

/-- Running `request_factory` a second time, from the session state the first
run left behind and with the same arguments, reproduces the first run. -/
theorem request_factory_stable (s : LibIOSessionBase) (rt : HttpOperation)
    (uh : Option UriHandler) (ph : Option ParamHandler)
    (hph : ∀ f, ph = some f → PHStable f)
    (args : List KwVal) (kwargs : Kwargs)
    (http : HttpRequest → Except PyError HttpResponse) :
    (s.request_factory rt uh ph args kwargs http).sess.request_factory rt uh ph args kwargs
        http = s.request_factory rt uh ph args kwargs http := by
  have hmem : rt ∈ [HttpOperation.get, HttpOperation.put, HttpOperation.post,
      HttpOperation.delete] := by cases rt <;> simp
  unfold LibIOSessionBase.request_factory
  simp only [hmem, not_true, if_false]
  rcases uh with _ | uhf
  · rfl
  · rcases hu : uhf args kwargs with e | uri
    · simp only [hu]
    · simp only [hu]
      rcases hpk : kwargs.lookup "page" with _ | pv
      · rcases hik : kwargs.lookup "items_per_page" with _ | pv2
        · simp only [hpk, hik]
          exact request_factory_tail_stable s rt ph hph uri _ _ kwargs http
        · rcases pv2 with sq2 | iq2 | vq2 | fq2 <;> simp only [hpk, hik] <;> try rfl
          exact request_factory_tail_stable s rt ph hph uri _ _ kwargs http
      · rcases pv with sq | iq | vq | fq <;> simp only [hpk] <;> try rfl
        rcases hik : kwargs.lookup "items_per_page" with _ | pv2
        · simp only [hpk, hik]
          exact request_factory_tail_stable s rt ph hph uri _ _ kwargs http
        · rcases pv2 with sq2 | iq2 | vq2 | fq2 <;> simp only [hpk, hik] <;> try rfl
          exact request_factory_tail_stable s rt ph hph uri _ _ kwargs http

/-- After an advance that signalled `StopIteration`, the iterator state is
unchanged up to the mutated session, and the following advance signals
`StopIteration` again: the same page is requested with the same parameters
and classified the same way. -/
theorem next_stop_stable (http : HttpRequest → Except PyError HttpResponse)
    (it : LibIOIterableRequest)
    (hph : ∀ f, it.param_handler = some f → PHStable f)
    (h : (it.next http).2 = NextRes.stop) :
    (it.next http).1.next http = ((it.next http).1, NextRes.stop) := by
  have hstable := request_factory_stable it.sess HttpOperation.get it.uri_handler
      it.param_handler hph it.args (it.kwargs.set "page" (KwVal.int it.current_page)) http
  unfold LibIOIterableRequest.next at h ⊢
  rcases hres : (it.sess.request_factory HttpOperation.get it.uri_handler it.param_handler
      it.args (it.kwargs.set "page" (KwVal.int it.current_page)) http).result with e | v
  · rcases e <;> simp only [hres] at h ⊢ <;> try simp at h
    all_goals simp only [set_set_self, hstable, hres]
  · by_cases hf : v.falsy
    · simp only [hres, hf, eq_self_iff_true, if_true] at h ⊢
      simp only [set_set_self, hstable, hres, hf, eq_self_iff_true, if_true]
    · simp only [hres, hf, Bool.false_eq_true, if_false] at h
      cases h

/-- C2 counterexample: an unexpected exception that is a `TypeError` (here:
an integer `platform` argument, which makes the URI join fail) does not
exhaust the iterator — the advance re-raises `TypeError` instead of
signalling end-of-iteration, and so does every later advance. -/
theorem iterator_typeerror_not_exhausted :
    (sample_iter_typeerr.next http_one_item).2 = NextRes.tyErr
    ∧ ((sample_iter_typeerr.next http_one_item).1.next http_one_item).2 = NextRes.tyErr
    ∧ NextRes.tyErr ≠ NextRes.stop :=
  ⟨rfl, rfl, by simp⟩

/-- C2 (amended): the page cursor starts at the caller-supplied `from_page`
(default 1), is incremented by exactly 1 after each successful non-empty page
and never decreases, so no page is requested twice during a run; on an empty
page, an HTTP error, or any other unexpected exception except an unexpected
type error, the iterator is exhausted: the advance signals end-of-iteration
and, the remote being a fixed function of the request, every subsequent
advance signals end-of-iteration again (single-pass, not restartable).  An
unexpected type error is instead re-raised as a typed error
(`iterator_typeerror_not_exhausted`).  The final conjunct runs the spec's
canned 3-page sequence: two pages of 30 items are yielded with cursors 1 and
2, then the empty third page stops the iteration for good. -/
theorem paginating_iterator_behaviour
    (http : HttpRequest → Except PyError HttpResponse) (it : LibIOIterableRequest)
    (hph : ∀ f, it.param_handler = some f → PHStable f) :
    (it.current_page ≤ ((it.next http).1).current_page
      ∧ ((it.next http).1).current_page ≤ it.current_page + 1)
    ∧ (∀ v, (it.next http).2 = NextRes.yielded v →
        ((it.next http).1).current_page = it.current_page + 1 ∧ v.falsy = false)
    ∧ (((it.next http).2 = NextRes.stop ∨ (it.next http).2 = NextRes.tyErr) →
        ((it.next http).1).current_page = it.current_page)
    ∧ ((it.next http).2 = NextRes.stop →
        (it.next http).1.next http = ((it.next http).1, NextRes.stop))
    ∧ (∀ (rt : HttpOperation) (uh : Option UriHandler) (ph : Option ParamHandler)
        (args : List KwVal) (key : Option String) (s0 : Option LibIOSessionBase)
        (fp : Option Int) (kw : Kwargs) (st : LibIOIterableRequest),
        LibIOIterableRequest.init rt uh ph args key s0 fp kw = .ok st →
        st.current_page = fp.getD QB_DEFAULT_PAGE)
    ∧ ((sample_iter_pages.next http_pages3).2 =
          NextRes.yielded (.list (List.replicate 30 "item"))
      ∧ (sample_iter_pages.next http_pages3).1.current_page = 2
      ∧ ((sample_iter_pages.next http_pages3).1.next http_pages3).2 =
          NextRes.yielded (.list (List.replicate 30 "item"))
      ∧ ((sample_iter_pages.next http_pages3).1.next http_pages3).1.current_page = 3
      ∧ (((sample_iter_pages.next http_pages3).1.next http_pages3).1.next http_pages3).2 =
          NextRes.stop
      ∧ ((((sample_iter_pages.next http_pages3).1.next http_pages3).1.next
          http_pages3).1.next http_pages3).2 = NextRes.stop) := by
  have hcursor :
      ((it.next http).2 = NextRes.stop ∨ (it.next http).2 = NextRes.tyErr →
        (it.next http).1.current_page = it.current_page)
      ∧ (∀ v, (it.next http).2 = NextRes.yielded v →
        (it.next http).1.current_page = it.current_page + 1 ∧ v.falsy = false) := by
    unfold LibIOIterableRequest.next
    rcases hres : (it.sess.request_factory HttpOperation.get it.uri_handler it.param_handler
        it.args (it.kwargs.set "page" (KwVal.int it.current_page)) http).result with e | v
    · simp only [hres]
      rcases e <;> simp
    · simp only [hres]
      by_cases hf : v.falsy <;> simp [hf]
  refine ⟨?_, ?_, ?_, next_stop_stable http it hph, ?_, ?_⟩
  · rcases h2 : (it.next http).2 with v | _ | _
    · have := (hcursor.2 v h2).1
      omega
    · have := hcursor.1 (Or.inl h2)
      omega
    · have := hcursor.1 (Or.inr h2)
      omega
  · intro v hv
    exact hcursor.2 v hv
  · intro hv
    exact hcursor.1 hv
  · intro rt uh ph args key s0 fp kw st hinit
    unfold LibIOIterableRequest.init at hinit
    by_cases hrt : rt = HttpOperation.get
    · simp only [hrt] at hinit
      repeat' split at hinit
      all_goals (try cases hinit)
      all_goals rfl
    · simp [hrt] at hinit
  · exact ⟨rfl, rfl, rfl, rfl, rfl, rfl⟩

/-- C2 witness: the amended theorem at the concrete canned iterator, whose
parameter handler is the (stable) search handler for `PLATFORMS`. -/
theorem paginating_iterator_behaviour_witness :
    (sample_iter_pages.next http_pages3).2 =
        NextRes.yielded (.list (List.replicate 30 "item"))
    ∧ (sample_iter_pages.next http_pages3).1.current_page = 2 :=
  ⟨(paginating_iterator_behaviour http_pages3 sample_iter_pages (fun f hf => by
      injection hf with h
      rw [← h]
      exact SearchAPI_param_handler_stable .platforms)).2.2.2.2.2.1,
   (paginating_iterator_behaviour http_pages3 sample_iter_pages (fun f hf => by
      injection hf with h
      rw [← h]
      exact SearchAPI_param_handler_stable .platforms)).2.2.2.2.2.2.1⟩

/-- C1 witness: the normalisation theorem at the concrete out-of-range inputs
`page = 0`, `per_page = 500` against empty session parameters. -/
theorem fix_pages_normalises_witness :
    (fix_pages Params.clear (some 0) (some 500)).1.page = some (max 0 1)
    ∧ (fix_pages Params.clear (some 0) (some 500)).1.per_page = some (min (max 500 1) 100) :=
  ⟨(fix_pages_normalises Params.clear (some 0) (some 500)).1,
   (fix_pages_normalises Params.clear (some 0) (some 500)).2.1⟩

/-- C7 witness: the clearing theorem at a concrete `PLATFORMS` call. -/
theorem make_request_always_clears_params_witness :
    (LibIOSession.make_request sample_sess HttpOperation.get
        (some (SearchAPI.uri_handler .platforms)) (some (SearchAPI.param_handler .platforms))
        [] [] http_one_item).2.1.params = Params.clear :=
  (make_request_always_clears_params sample_sess HttpOperation.get
    (some (SearchAPI.uri_handler .platforms)) (some (SearchAPI.param_handler .platforms))
    [] [] http_one_item).1

end Quibraries
